import Mathlib

/-!
Shallow embedding of `src/turing_machine.rs` (crate `tms`), a deterministic
single-tape Turing-machine interpreter, together with proofs about the
specified behaviour of its operations.

Modelling conventions:
* Rust `Vec<char>` becomes `List Char`, `usize` becomes `Nat`, `String`
  stays `String`.
* The Rust methods mutate `&mut self`; here every operation takes the
  machine value and returns the new machine value.
* Rust `step` and `update` have no error channel (they return `()`), but
  they can panic: `self.tape[self.tape_cell]` panics when the index is out
  of range, and `self.tape_cell -= 1` panics on `usize` underflow in a
  debug build.  A panic is modelled as `Except.error m`, where `m` is the
  observable memory state of the machine at the moment of the panic
  (fields assigned before the panicking statement keep their new values).
  `Except.ok m` is a normal return.
* `load_cfg` reads lines from a file; the file I/O is external, so the
  embedding takes the list of lines directly.  Its `io::Error` return is
  `CfgError.invalidLine`; the two `.unwrap()` calls in the 5-field branch
  are panics and are modelled as the distinct outcomes
  `CfgError.invalidDirectionPanic` and `CfgError.emptyFieldPanic`.
  Rust's `split_whitespace` is modelled by splitting on whitespace
  characters and dropping empty fragments.
-/

namespace TMS

/-- Embedding of the Rust enum `Direction` with variants `Lhs`, `Rhs`, `Stay`. -/
inductive Direction where
  | Lhs
  | Rhs
  | Stay
  deriving DecidableEq

/-- Embedding of `Direction::str2dir`: `Ok`/`Err` becomes `some`/`none`. -/
def Direction.str2dir (strdir : String) : Option Direction :=
  match strdir with
  | "left" => some Direction.Lhs
  | "right" => some Direction.Rhs
  | "stay" => some Direction.Stay
  | _ => none

/-- Embedding of `Direction::dir2str`. -/
def Direction.dir2str (dir : Direction) : String :=
  match dir with
  | Direction.Lhs => "left"
  | Direction.Rhs => "right"
  | Direction.Stay => "stay"

/-- Embedding of the Rust struct `Instruction` (one transition rule). -/
structure Instruction where
  current_state : String
  current_symbol : Char
  new_state : String
  new_symbol : Char
  direction : Direction
  deriving DecidableEq

/-- Embedding of `Instruction::is_matching`. -/
def Instruction.is_matching (self : Instruction) (state : String) (symbol : Char) : Bool :=
  state == self.current_state && symbol == self.current_symbol

/-- Embedding of the Rust struct `TuringMachine`. -/
structure TuringMachine where
  state : String
  halt_state : String
  tape : List Char
  tape_cell : Nat
  instructions : List Instruction
  deriving DecidableEq

/-- Embedding of `TuringMachine::new`. -/
def TuringMachine.new : TuringMachine :=
  { state := ""
    halt_state := ""
    tape := []
    tape_cell := 0
    instructions := [] }

/-- Outcomes by which `load_cfg` can fail.  `invalidLine` is the
`io::Error` actually returned to the caller ("Invalid line in CFG file.").
`invalidDirectionPanic` is the panic caused by
`Direction::str2dir(substrings[4]).unwrap()` on an unrecognized movement
token; `emptyFieldPanic` is the (unreachable) panic of
`.chars().next().unwrap()` on an empty field. -/
inductive CfgError where
  | invalidLine
  | invalidDirectionPanic
  | emptyFieldPanic
  deriving DecidableEq

/-- Decidable equality for `Except`, used to state and check concrete
executions of `step` and `load_cfg`. -/
instance {ε α : Type} [DecidableEq ε] [DecidableEq α] : DecidableEq (Except ε α) := fun a b =>
  match a, b with
  | Except.ok x, Except.ok y =>
    if h : x = y then isTrue (by rw [h]) else isFalse (fun hh => h (Except.ok.inj hh))
  | Except.error x, Except.error y =>
    if h : x = y then isTrue (by rw [h]) else isFalse (fun hh => h (Except.error.inj hh))
  | Except.ok _, Except.error _ => isFalse (fun hh => Except.noConfusion hh)
  | Except.error _, Except.ok _ => isFalse (fun hh => Except.noConfusion hh)

/-- Accumulator pass over the characters of a line, building the list of
maximal non-whitespace runs; `acc` holds the characters of the current
run in reverse order. -/
def split_whitespace_aux : List Char → List Char → List String
  | [], acc => if acc.isEmpty then [] else [String.mk acc.reverse]
  | c :: cs, acc =>
    if c.isWhitespace then
      if acc.isEmpty then
        split_whitespace_aux cs []
      else
        String.mk acc.reverse :: split_whitespace_aux cs []
    else
      split_whitespace_aux cs (c :: acc)

/-- Model of Rust `str::split_whitespace` (as used by
`line.split_whitespace().collect()`): the maximal non-whitespace runs of
the line, in order.  Empty fragments never occur. -/
def split_whitespace (s : String) : List String :=
  split_whitespace_aux s.toList []

/-- Model of Rust `line.starts_with('#')`. -/
def starts_with_hash (line : String) : Bool :=
  match line.toList with
  | c :: _ => c == '#'
  | [] => false

/-- Model of Rust `line.trim().is_empty()`: the trimmed line is empty
exactly when every character of the line is whitespace. -/
def trim_is_empty (line : String) : Bool :=
  line.toList.all Char.isWhitespace

/-- The skip condition of the `load_cfg` loop:
`line.starts_with('#') || line.trim().is_empty()`. -/
def line_skipped (line : String) : Bool :=
  starts_with_hash line || trim_is_empty line

/-- Body of the `for line in reader.lines()` loop of
`TuringMachine::load_cfg`: processes one line of the configuration file.
Comment lines (`#` prefix) and blank lines are skipped; a 2-field line
sets `state` and `tape`, a 1-field line sets `halt_state`, a 5-field line
appends an `Instruction`, and any other field count returns the
`InvalidData` error.  An error result carries the machine state visible
at that point (`&mut self` mutations from earlier lines persist). -/
def load_cfg_line (m : TuringMachine) (line : String) :
    Except (CfgError × TuringMachine) TuringMachine :=
  if line_skipped line then
    Except.ok m
  else
    match split_whitespace line with
    | [s0, s1] => Except.ok { m with state := s0, tape := s1.toList }
    | [s0] => Except.ok { m with halt_state := s0 }
    | [s0, s1, s2, s3, s4] =>
      match s1.toList, s3.toList with
      | c1 :: _, c3 :: _ =>
        match Direction.str2dir s4 with
        | some d =>
          Except.ok { m with instructions := m.instructions ++
            [{ current_state := s0, current_symbol := c1,
               new_state := s2, new_symbol := c3, direction := d }] }
        | none => Except.error (CfgError.invalidDirectionPanic, m)
      | _, _ => Except.error (CfgError.emptyFieldPanic, m)
    | _ => Except.error (CfgError.invalidLine, m)

/-- Embedding of `TuringMachine::load_cfg` over the list of lines of the
configuration file. -/
def TuringMachine.load_cfg (m : TuringMachine) :
    List String → Except (CfgError × TuringMachine) TuringMachine
  | [] => Except.ok m
  | l :: ls =>
    match load_cfg_line m l with
    | Except.ok m1 => TuringMachine.load_cfg m1 ls
    | Except.error e => Except.error e

/-- Embedding of `TuringMachine::update`.  The Rust body runs, in order:
`self.state = new_state.to_string()`, then
`self.tape[self.tape_cell] = new_symbol` (panics when `tape_cell` is out
of range), then the `match dir` adjusting `tape_cell`, where
`Direction::Lhs => self.tape_cell -= 1` panics on `usize` underflow when
`tape_cell` is `0` (debug-build overflow semantics).  A panic is
`Except.error` carrying the machine as already mutated. -/
def TuringMachine.update (m : TuringMachine) (new_state : String) (new_symbol : Char)
    (dir : Direction) : Except TuringMachine TuringMachine :=
  let m1 : TuringMachine := { m with state := new_state }
  if m1.tape_cell < m1.tape.length then
    let m2 : TuringMachine := { m1 with tape := m1.tape.set m1.tape_cell new_symbol }
    match dir with
    | Direction.Lhs =>
      if m2.tape_cell = 0 then
        Except.error m2
      else
        Except.ok { m2 with tape_cell := m2.tape_cell - 1 }
    | Direction.Rhs => Except.ok { m2 with tape_cell := m2.tape_cell + 1 }
    | Direction.Stay => Except.ok m2
  else
    Except.error m1

/-- The `for i in 0..self.instructions.len()` loop of
`TuringMachine::step`, walking the remaining instruction list.  Each
iteration reads `self.tape[self.tape_cell]` (panicking when the index is
out of range — only reached when at least one instruction remains); the
first matching instruction is applied via `update` and the loop breaks.
If no instruction matches, the loop falls through and `step` returns
normally with the machine unchanged. -/
def TuringMachine.stepAux (m : TuringMachine) :
    List Instruction → Except TuringMachine TuringMachine
  | [] => Except.ok m
  | i :: rest =>
    match m.tape[m.tape_cell]? with
    | none => Except.error m
    | some sym =>
      if i.is_matching m.state sym then
        m.update i.new_state i.new_symbol i.direction
      else
        TuringMachine.stepAux m rest

/-- Embedding of `TuringMachine::step`. -/
def TuringMachine.step (m : TuringMachine) : Except TuringMachine TuringMachine :=
  TuringMachine.stepAux m m.instructions

/-- Embedding of `TuringMachine::is_halt`. -/
def TuringMachine.is_halt (m : TuringMachine) : Bool :=
  m.state == m.halt_state

/-- Embedding of `TuringMachine::reset`: clears every field back to the
values produced by `TuringMachine::new`. -/
def TuringMachine.reset (_m : TuringMachine) : TuringMachine :=
  { state := ""
    halt_state := ""
    tape := []
    tape_cell := 0
    instructions := [] }

/-- Machine with a valid head position whose (only, matching) rule moves
left while the head is at cell 0. -/
def mLhs0 : TuringMachine :=
  { state := "A", halt_state := "H", tape := ['0'], tape_cell := 0,
    instructions := [{ current_state := "A", current_symbol := '0',
                       new_state := "B", new_symbol := '1', direction := Direction.Lhs }] }

/-- Machine used to exercise a successful left move: head at cell 1 of a
two-cell tape, one matching rule moving left. -/
def mW1 : TuringMachine :=
  { state := "A", halt_state := "H", tape := ['0', '1'], tape_cell := 1,
    instructions := [{ current_state := "A", current_symbol := '1',
                       new_state := "B", new_symbol := '0', direction := Direction.Lhs }] }

/-- Boundary machine: only rule moves left while the head is at cell 0. -/
def mLeftEdge : TuringMachine :=
  { state := "A", halt_state := "H", tape := ['0'], tape_cell := 0,
    instructions := [{ current_state := "A", current_symbol := '0',
                       new_state := "B", new_symbol := '1', direction := Direction.Lhs }] }

/-- Boundary machine: only rule moves right while the head is at the last
cell of the tape. -/
def mRightEdge : TuringMachine :=
  { state := "A", halt_state := "H", tape := ['0'], tape_cell := 0,
    instructions := [{ current_state := "A", current_symbol := '0',
                       new_state := "B", new_symbol := '1', direction := Direction.Rhs }] }

/-- The machine `mRightEdge` reaches after its single step: the head
index equals the tape length, i.e. it is out of range. -/
def mRightEdgePost : TuringMachine :=
  { state := "B", halt_state := "H", tape := ['1'], tape_cell := 1,
    instructions := mRightEdge.instructions }

/-- Stuck machine: not in its halting state, and its single rule does not
match the current (state, symbol) pair. -/
def mStuck : TuringMachine :=
  { state := "A", halt_state := "H", tape := ['0'], tape_cell := 0,
    instructions := [{ current_state := "B", current_symbol := '0',
                       new_state := "B", new_symbol := '1', direction := Direction.Stay }] }

/-- Machine with two rules for the same (state, symbol) pair but
different consequences; the first one was inserted earlier. -/
def mDup : TuringMachine :=
  { state := "A", halt_state := "H", tape := ['0'], tape_cell := 0,
    instructions := [{ current_state := "A", current_symbol := '0',
                       new_state := "B", new_symbol := '1', direction := Direction.Stay },
                     { current_state := "A", current_symbol := '0',
                       new_state := "C", new_symbol := '2', direction := Direction.Rhs }] }

/-- End-to-end scenario machine: rules {(A,'0')→(A,'1',right),
(A,'1')→(B,'0',stay)}, halting state B, initial state A, tape "01",
head at 0. -/
def tm5_0 : TuringMachine :=
  { state := "A", halt_state := "B", tape := ['0', '1'], tape_cell := 0,
    instructions := [{ current_state := "A", current_symbol := '0',
                       new_state := "A", new_symbol := '1', direction := Direction.Rhs },
                     { current_state := "A", current_symbol := '1',
                       new_state := "B", new_symbol := '0', direction := Direction.Stay }] }

/-- Expected machine after the first step of the end-to-end scenario. -/
def tm5_1 : TuringMachine :=
  { state := "A", halt_state := "B", tape := ['1', '1'], tape_cell := 1,
    instructions := tm5_0.instructions }

/-- Expected machine after the second step of the end-to-end scenario. -/
def tm5_2 : TuringMachine :=
  { state := "B", halt_state := "B", tape := ['1', '0'], tape_cell := 1,
    instructions := tm5_0.instructions }

/-- Machine whose rule table contains only a non-matching rule, used to
witness the frame condition of `step`. -/
def mW7 : TuringMachine :=
  { state := "A", halt_state := "H", tape := ['0'], tape_cell := 0,
    instructions := [{ current_state := "A", current_symbol := '1',
                       new_state := "B", new_symbol := '1', direction := Direction.Rhs }] }

/-- The machine value observable in either outcome of an operation: the
normal result for `Except.ok`, the memory state at the panic for
`Except.error`. -/
def exMachine : Except TuringMachine TuringMachine → TuringMachine
  | Except.ok m => m
  | Except.error m => m

/-- The head displacement of the `match dir` block of `update`: the cell
index decremented for `Lhs`, incremented for `Rhs`, unchanged for
`Stay`. -/
def Direction.moveCell (d : Direction) (cell : Nat) : Nat :=
  match d with
  | Direction.Lhs => cell - 1
  | Direction.Rhs => cell + 1
  | Direction.Stay => cell

/-- Instructions that do not match the current (state, symbol) pair are
skipped by the scan in `step`. -/
theorem stepAux_skip (m : TuringMachine) (sym : Char)
    (hsym : m.tape[m.tape_cell]? = some sym) :
    ∀ (pre l : List Instruction), (∀ r ∈ pre, r.is_matching m.state sym = false) →
      TuringMachine.stepAux m (pre ++ l) = TuringMachine.stepAux m l := by
  intro pre
  induction pre with
  | nil => intro l _; rfl
  | cons r rs ih =>
    intro l h
    have hr : r.is_matching m.state sym = false := h r (List.mem_cons_self r rs)
    have hrs : ∀ r2 ∈ rs, r2.is_matching m.state sym = false :=
      fun r2 hm => h r2 (List.mem_cons_of_mem r hm)
    calc TuringMachine.stepAux m ((r :: rs) ++ l)
        = TuringMachine.stepAux m (rs ++ l) := by
          simp [TuringMachine.stepAux, hsym, hr]
      _ = TuringMachine.stepAux m l := ih l hrs

/-- When the first instruction of the remaining list matches, the scan
applies it via `update` and stops. -/
theorem stepAux_match (m : TuringMachine) (sym : Char) (r : Instruction)
    (rest : List Instruction)
    (hsym : m.tape[m.tape_cell]? = some sym)
    (hr : r.is_matching m.state sym = true) :
    TuringMachine.stepAux m (r :: rest) = m.update r.new_state r.new_symbol r.direction := by
  simp [TuringMachine.stepAux, hsym, hr]

/-- Normal-return behaviour of `update` when the head stays in range:
symbol written at the current cell, state replaced, head moved. -/
theorem update_ok (m : TuringMachine) (ns : String) (c : Char) (d : Direction)
    (hcell : m.tape_cell < m.tape.length)
    (hd : d = Direction.Lhs → m.tape_cell ≠ 0) :
    m.update ns c d = Except.ok { m with
      state := ns,
      tape := m.tape.set m.tape_cell c,
      tape_cell := Direction.moveCell d m.tape_cell } := by
  cases d with
  | Lhs =>
    have h0 : m.tape_cell ≠ 0 := hd rfl
    simp [TuringMachine.update, Direction.moveCell, hcell, h0]
  | Rhs => simp [TuringMachine.update, Direction.moveCell, hcell]
  | Stay => simp [TuringMachine.update, Direction.moveCell, hcell]

/-- Whatever `update` does, it never touches `halt_state` or
`instructions`. -/
theorem update_frame (m : TuringMachine) (ns : String) (c : Char) (d : Direction) :
    (exMachine (m.update ns c d)).halt_state = m.halt_state ∧
    (exMachine (m.update ns c d)).instructions = m.instructions := by
  cases d <;> unfold TuringMachine.update <;> dsimp only <;> split <;> (try split) <;>
    exact ⟨rfl, rfl⟩

/-- Whatever the scan of `step` does, it never touches `halt_state` or
`instructions`. -/
theorem stepAux_frame (m : TuringMachine) :
    ∀ l : List Instruction,
      (exMachine (TuringMachine.stepAux m l)).halt_state = m.halt_state ∧
      (exMachine (TuringMachine.stepAux m l)).instructions = m.instructions := by
  intro l
  induction l with
  | nil => exact ⟨rfl, rfl⟩
  | cons i rest ih =>
    unfold TuringMachine.stepAux
    cases hget : m.tape[m.tape_cell]? with
    | none => exact ⟨rfl, rfl⟩
    | some sym =>
      by_cases hm : i.is_matching m.state sym = true
      · simp only [hm, if_true]
        exact update_frame m i.new_state i.new_symbol i.direction
      · simp only [Bool.not_eq_true] at hm
        simp only [hm, Bool.false_eq_true, if_false]
        exact ih

/-- When no instruction of the list matches, the scan falls through and
returns the machine unchanged. -/
theorem stepAux_no_match (m : TuringMachine) (sym : Char)
    (hsym : m.tape[m.tape_cell]? = some sym) :
    ∀ l : List Instruction, (∀ r ∈ l, r.is_matching m.state sym = false) →
      TuringMachine.stepAux m l = Except.ok m := by
  intro l
  induction l with
  | nil => intro _; rfl
  | cons r rs ih =>
    intro h
    have hr : r.is_matching m.state sym = false := h r (List.mem_cons_self r rs)
    have hrs : ∀ r2 ∈ rs, r2.is_matching m.state sym = false :=
      fun r2 hm => h r2 (List.mem_cons_of_mem r hm)
    simp [TuringMachine.stepAux, hsym, hr]
    exact ih hrs

/-- `load_cfg` over a concatenation of line lists is the sequential
composition of the two loads. -/
theorem load_cfg_append (ls1 : List String) :
    ∀ (m : TuringMachine) (ls2 : List String),
      m.load_cfg (ls1 ++ ls2) =
        match m.load_cfg ls1 with
        | Except.ok m1 => m1.load_cfg ls2
        | Except.error e => Except.error e := by
  induction ls1 with
  | nil => intro m ls2; rfl
  | cons l ls ih =>
    intro m ls2
    simp only [List.cons_append, TuringMachine.load_cfg]
    cases hline : load_cfg_line m l with
    | ok m1 => exact ih m1 ls2
    | error e => rfl

/-- C1 (amended): for every machine whose head position is a valid tape
index and whose rule table contains a matching rule — with `r` the first
matching one — and excluding the case where `r` moves left while the head
is at cell 0, `step` writes `r.new_symbol` at the pre-step head position,
sets the state to `r.new_state`, and moves the head by −1 for `Lhs`, +1
for `Rhs`, and 0 for `Stay`. -/
theorem step_applies_first_matching_rule (m : TuringMachine) (sym : Char) (r : Instruction)
    (pre rest : List Instruction)
    (hins : m.instructions = pre ++ r :: rest)
    (hsym : m.tape[m.tape_cell]? = some sym)
    (hpre : ∀ r2 ∈ pre, r2.is_matching m.state sym = false)
    (hr : r.is_matching m.state sym = true)
    (hL : r.direction = Direction.Lhs → m.tape_cell ≠ 0) :
    m.step = Except.ok { m with
      state := r.new_state,
      tape := m.tape.set m.tape_cell r.new_symbol,
      tape_cell := Direction.moveCell r.direction m.tape_cell } := by
  have hcell : m.tape_cell < m.tape.length := by
    by_contra hle
    rw [List.getElem?_eq_none (Nat.le_of_not_lt hle)] at hsym
    exact Option.noConfusion hsym
  calc m.step
      = TuringMachine.stepAux m (pre ++ r :: rest) := by
        rw [TuringMachine.step, hins]
    _ = TuringMachine.stepAux m (r :: rest) := stepAux_skip m sym hsym pre (r :: rest) hpre
    _ = m.update r.new_state r.new_symbol r.direction := stepAux_match m sym r rest hsym hr
    _ = Except.ok { m with
          state := r.new_state,
          tape := m.tape.set m.tape_cell r.new_symbol,
          tape_cell := Direction.moveCell r.direction m.tape_cell } :=
        update_ok m r.new_state r.new_symbol r.direction hcell hL

/-- Witness for C1's theorem: on `mW1` the single rule matches at head
cell 1, and `step` writes '0', moves to state "B" and decrements the
head. -/
theorem step_applies_first_matching_rule_witness :
    mW1.step = Except.ok { state := "B", halt_state := "H", tape := ['0', '0'],
                           tape_cell := 0, instructions := mW1.instructions } := by
  have h := step_applies_first_matching_rule mW1 '1'
      { current_state := "A", current_symbol := '1', new_state := "B",
        new_symbol := '0', direction := Direction.Lhs } [] []
      rfl (by decide) (by intro r2 h2; cases h2) (by decide) (fun _ => by decide)
  exact h

/-- C1 (counterexample to the claim as stated): `mLhs0` has a valid head
position (cell 0 of a one-cell tape) and a matching rule whose movement
is `MoveLeft`, yet `step` does not complete with the head moved by −1: it
panics on the `usize` underflow, with the symbol already written and the
state already updated and the head still at 0. -/
theorem step_moveleft_at_zero_panics :
    Instruction.is_matching
        { current_state := "A", current_symbol := '0', new_state := "B",
          new_symbol := '1', direction := Direction.Lhs } mLhs0.state '0' = true
    ∧ mLhs0.tape[mLhs0.tape_cell]? = some '0'
    ∧ mLhs0.step = Except.error { state := "B", halt_state := "H", tape := ['1'],
                                  tape_cell := 0, instructions := mLhs0.instructions } := by
  exact ⟨by decide, by decide, by decide⟩

/-- C2: the code has no explicit HeadOutOfBounds error and no
all-or-nothing effect.  Moving left from cell 0 panics (modelled as
`Except.error`) with the tape already rewritten to ['1'] and the state
already set to "B"; moving right from the last cell succeeds silently,
leaving the head index equal to the tape length, and only the following
`step` panics on the tape access. -/
theorem step_boundary_behaviour :
    mLeftEdge.step = Except.error { state := "B", halt_state := "H", tape := ['1'],
                                    tape_cell := 0, instructions := mLeftEdge.instructions }
    ∧ mRightEdge.step = Except.ok mRightEdgePost
    ∧ mRightEdgePost.tape_cell = mRightEdgePost.tape.length
    ∧ mRightEdgePost.step = Except.error mRightEdgePost := by
  exact ⟨by decide, by decide, by decide, by decide⟩

/-- C3: on `mStuck`, which is not in its halting state and whose rule
table has no rule matching the current (state, symbol) pair, `step`
returns normally with the machine unchanged — the very same observable
outcome as a successful no-op, with no NoMatchingRule signal of any
kind. -/
theorem step_no_match_is_silent_noop :
    mStuck.is_halt = false ∧ mStuck.step = Except.ok mStuck := by
  exact ⟨by decide, by decide⟩

/-- C4: first match wins.  If the rule table is
`pre ++ r1 :: (mid ++ r2 :: post)` where nothing in `pre` matches, `r1`
matches, and `r2` is a later rule with the same (current_state,
current_symbol) key but a different consequence, then `step` applies
exactly `r1`'s consequence. -/
theorem step_first_match_wins (m : TuringMachine) (sym : Char) (r1 r2 : Instruction)
    (pre mid post : List Instruction)
    (hins : m.instructions = pre ++ r1 :: (mid ++ r2 :: post))
    (hsym : m.tape[m.tape_cell]? = some sym)
    (hpre : ∀ r0 ∈ pre, r0.is_matching m.state sym = false)
    (hr1 : r1.is_matching m.state sym = true)
    (_hsame : r2.current_state = r1.current_state ∧ r2.current_symbol = r1.current_symbol)
    (_hdiff : r2.new_state ≠ r1.new_state ∨ r2.new_symbol ≠ r1.new_symbol ∨
      r2.direction ≠ r1.direction) :
    m.step = m.update r1.new_state r1.new_symbol r1.direction := by
  calc m.step
      = TuringMachine.stepAux m (pre ++ r1 :: (mid ++ r2 :: post)) := by
        rw [TuringMachine.step, hins]
    _ = TuringMachine.stepAux m (r1 :: (mid ++ r2 :: post)) :=
        stepAux_skip m sym hsym pre (r1 :: (mid ++ r2 :: post)) hpre
    _ = m.update r1.new_state r1.new_symbol r1.direction :=
        stepAux_match m sym r1 (mid ++ r2 :: post) hsym hr1

/-- Witness for C4's theorem: on `mDup`, whose two rules share the key
(A, '0') but disagree on every consequence, `step` applies the first
rule, ending in state "B" with '1' written, not state "C" with '2'. -/
theorem step_first_match_wins_witness :
    mDup.step = mDup.update "B" '1' Direction.Stay
    ∧ mDup.update "B" '1' Direction.Stay =
        Except.ok { state := "B", halt_state := "H", tape := ['1'], tape_cell := 0,
                    instructions := mDup.instructions } := by
  constructor
  · exact step_first_match_wins mDup '0'
      { current_state := "A", current_symbol := '0', new_state := "B",
        new_symbol := '1', direction := Direction.Stay }
      { current_state := "A", current_symbol := '0', new_state := "C",
        new_symbol := '2', direction := Direction.Rhs }
      [] [] [] rfl (by decide) (by intro r0 h0; cases h0) (by decide)
      (by exact ⟨rfl, rfl⟩) (by left; decide)
  · decide

/-- C5: end-to-end scenario.  From rules {(A,'0')→(A,'1',right),
(A,'1')→(B,'0',stay)}, halting state B, state A, tape "01", head 0: the
first step yields tape "11", state A, head 1; the second yields tape
"10", state B, head 1; `is_halt` is then true (and was false before). -/
theorem end_to_end_scenario :
    tm5_0.step = Except.ok tm5_1 ∧ tm5_1.step = Except.ok tm5_2
    ∧ tm5_1.is_halt = false ∧ tm5_2.is_halt = true := by
  exact ⟨by decide, by decide, by decide, by decide⟩

/-- C6: `is_halt` returns true exactly when the current state equals the
halting state.  It is a pure function of the machine value (the
embedding has no mutation channel), so repeated calls without an
intervening `step` trivially return the same answer. -/
theorem is_halt_iff_state_eq_halt_state :
    ∀ m : TuringMachine, m.is_halt = true ↔ m.state = m.halt_state := by
  intro m
  simp [TuringMachine.is_halt]

/-- C7: frame condition of `step`.  Whatever `step` does — normal return
or panic — the halting-state identifier and the rule table of the
resulting observable machine are unchanged; and when the head reads a
symbol no rule matches, `step` returns the whole machine unchanged. -/
theorem step_frame :
    (∀ m : TuringMachine,
      (exMachine m.step).halt_state = m.halt_state ∧
      (exMachine m.step).instructions = m.instructions)
  ∧ (∀ (m : TuringMachine) (sym : Char),
      m.tape[m.tape_cell]? = some sym →
      (∀ r ∈ m.instructions, r.is_matching m.state sym = false) →
      m.step = Except.ok m) := by
  constructor
  · intro m
    exact stepAux_frame m m.instructions
  · intro m sym hsym hno
    exact stepAux_no_match m sym hsym m.instructions hno

/-- Witness for C7's theorem: on `mW7`, whose only rule does not match,
`step` returns the machine unchanged. -/
theorem step_frame_witness :
    mW7.tape[mW7.tape_cell]? = some '0' ∧ mW7.step = Except.ok mW7 := by
  exact ⟨by decide, step_frame.2 mW7 '0' (by decide) (by decide)⟩

/-- C8: `reset` yields exactly the machine produced by `new` — empty
state and halting-state identifiers, empty tape, head at 0, empty rule
table — so loading and running after `reset` is literally running on a
freshly constructed engine. -/
theorem reset_equals_new :
    (∀ m : TuringMachine, m.reset = TuringMachine.new)
    ∧ (∀ (m : TuringMachine) (lines : List String),
        (m.reset).load_cfg lines = TuringMachine.new.load_cfg lines) := by
  exact ⟨fun _ => rfl, fun _ _ => rfl⟩

/-- C9: a malformed field count is returned to the caller as the
configuration-format error, but an unrecognized movement token is not: on
the line "A 0 B 1 up" the loader panics on the `.unwrap()` of
`str2dir`'s error instead of returning it.  In both outcomes the machine
still has an empty rule table — no partially-formed rule reaches the
core. -/
theorem load_cfg_bad_direction_panics :
    TuringMachine.new.load_cfg ["A 0 B 1 up"]
        = Except.error (CfgError.invalidDirectionPanic, TuringMachine.new)
    ∧ TuringMachine.new.load_cfg ["A B C"]
        = Except.error (CfgError.invalidLine, TuringMachine.new)
    ∧ TuringMachine.new.instructions = [] := by
  exact ⟨by decide, by decide, rfl⟩

/-- C10: duplicate state/tape and halting-state lines are not rejected —
appending a further 2-field line overwrites `state` and `tape` with its
values, appending a further 1-field line overwrites `halt_state`, and a
5-field rule line appends its rule at the end of the table, whatever the
earlier lines set. -/
theorem load_cfg_last_wins :
    (∀ (m m1 : TuringMachine) (ls : List String) (l s0 s1 : String),
      m.load_cfg ls = Except.ok m1 →
      line_skipped l = false →
      split_whitespace l = [s0, s1] →
      m.load_cfg (ls ++ [l]) = Except.ok { m1 with state := s0, tape := s1.toList })
  ∧ (∀ (m m1 : TuringMachine) (ls : List String) (l s0 : String),
      m.load_cfg ls = Except.ok m1 →
      line_skipped l = false →
      split_whitespace l = [s0] →
      m.load_cfg (ls ++ [l]) = Except.ok { m1 with halt_state := s0 })
  ∧ (∀ (m m1 : TuringMachine) (ls : List String) (l s0 s1 s2 s3 s4 : String)
      (c1 c3 : Char) (t1 t3 : List Char) (d : Direction),
      m.load_cfg ls = Except.ok m1 →
      line_skipped l = false →
      split_whitespace l = [s0, s1, s2, s3, s4] →
      s1.toList = c1 :: t1 → s3.toList = c3 :: t3 →
      Direction.str2dir s4 = some d →
      m.load_cfg (ls ++ [l]) = Except.ok { m1 with instructions := m1.instructions ++
        [{ current_state := s0, current_symbol := c1,
           new_state := s2, new_symbol := c3, direction := d }] }) := by
  refine ⟨?_, ?_, ?_⟩
  · intro m m1 ls l s0 s1 hok hskip hsplit
    rw [load_cfg_append ls m [l], hok]
    simp [TuringMachine.load_cfg, load_cfg_line, hskip, hsplit]
  · intro m m1 ls l s0 hok hskip hsplit
    rw [load_cfg_append ls m [l], hok]
    simp [TuringMachine.load_cfg, load_cfg_line, hskip, hsplit]
  · intro m m1 ls l s0 s1 s2 s3 s4 c1 c3 t1 t3 d hok hskip hsplit hs1 hs3 hd
    rw [load_cfg_append ls m [l], hok]
    have hs1d : s1.data = c1 :: t1 := hs1
    have hs3d : s3.data = c3 :: t3 := hs3
    simp [TuringMachine.load_cfg, load_cfg_line, hskip, hsplit, hs1d, hs3d, hd]

/-- Witness for C10's theorem: loading "A 01" and then "B 10" leaves the
state and tape of the second line. -/
theorem load_cfg_last_wins_witness :
    TuringMachine.new.load_cfg (["A 01"] ++ ["B 10"]) =
      Except.ok { state := "B", halt_state := "", tape := ['1', '0'], tape_cell := 0,
                  instructions := [] } := by
  have h := load_cfg_last_wins.1 TuringMachine.new
      { state := "A", halt_state := "", tape := ['0', '1'], tape_cell := 0, instructions := [] }
      ["A 01"] "B 10" "B" "10" (by decide) (by decide) (by decide)
  exact h

end TMS
